import Mathlib

/-!
# Verification of the Foxglove SDK sink/channel core

This development embeds the sink/channel core of the Foxglove SDK
(channel/schema registry, contexts, sink fan-out and filtering, the MCAP
file-sink surface, the generated-schema `encode` protocol and the
websocket `Parameter` type) and proves the testable properties stated in
the repository's specification against that embedding.

The repository ships the SDK core as a Rust library that is consumed by
the C++ binding through a C ABI; the sources present here contain the
C++ headers, tests and code generators, while the Rust core itself is
absent.  Definitions below that embed the absent core are each marked
`Modelled from the spec:` and follow the specification's description of
the corresponding operation; definitions taken from C++ sources present
in the repository cite the file they embed.

Byte strings (topics, encodings, schema payloads, file paths, message
data) are modelled as `List Nat`, each element a byte value.
-/

/-- A byte string: topics, encodings, payloads and paths are byte
sequences at the C ABI boundary (`foxglove_string` carries a pointer and
a length, with no UTF-8 guarantee). -/
abbrev Bytes := List Nat

/-- Error codes of the SDK's fallible operations, from the spec's
exit/error surface: every fallible constructor returns a tagged result,
with at minimum these codes. -/
inductive FoxgloveError where
  | Ok
  | Utf8Error
  | IoError
  | ValueError
  | BufferTooShort
  | EncodeError
  | Base64DecodeError
deriving Repr, DecidableEq

/-- Is `b` a UTF-8 continuation byte (`0x80..0xBF`)? -/
def isUtf8Cont (b : Nat) : Bool :=
  decide (0x80 ≤ b ∧ b < 0xC0)

/-- UTF-8 validity of a byte sequence, as checked by the core when a
topic, encoding, schema field or path crosses the C ABI (the Rust core
accepts only well-formed UTF-8: no bare continuation bytes, no overlong
encodings, no surrogates, no code points above `U+10FFFF`). -/
def isValidUtf8 : Bytes → Bool
  | [] => true
  | b :: rest =>
    if b < 0x80 then
      isValidUtf8 rest
    else if b < 0xC2 then
      false
    else if b < 0xE0 then
      match rest with
      | b1 :: rest₂ => isUtf8Cont b1 && isValidUtf8 rest₂
      | [] => false
    else if b < 0xF0 then
      match rest with
      | b1 :: b2 :: rest₂ =>
        (if b == 0xE0 then decide (0xA0 ≤ b1 ∧ b1 < 0xC0)
         else if b == 0xED then decide (0x80 ≤ b1 ∧ b1 < 0xA0)
         else isUtf8Cont b1) && isUtf8Cont b2 && isValidUtf8 rest₂
      | _ => false
    else if b < 0xF5 then
      match rest with
      | b1 :: b2 :: b3 :: rest₂ =>
        (if b == 0xF0 then decide (0x90 ≤ b1 ∧ b1 < 0xC0)
         else if b == 0xF4 then decide (0x80 ≤ b1 ∧ b1 < 0x90)
         else isUtf8Cont b1) && isUtf8Cont b2 && isUtf8Cont b3 && isValidUtf8 rest₂
      | _ => false
    else
      false

/-- A schema: name, encoding and an opaque byte payload.  Modelled from
the spec: "identity: name string; attributes: encoding string, opaque
byte payload". -/
structure SchemaDef where
  name : Bytes
  encoding : Bytes
  data : Bytes
deriving Repr, DecidableEq

/-- A registered channel.  Modelled from the spec: "identity: numeric ID
(unique within a Context, monotonically assigned); attributes: topic
name, message encoding string, optional Schema, optional metadata
(ordered key/value pairs)"; `close()` transitions it to closed but the
ID is not reused. -/
structure Channel where
  id : Nat
  topic : Bytes
  messageEncoding : Bytes
  schema : Option SchemaDef
  metadata : List (Bytes × Bytes)
  closed : Bool
deriving Repr, DecidableEq

/-- One message as delivered to a sink: channel ID, payload bytes and
log time in nanoseconds. -/
structure Message where
  channelId : Nat
  data : Bytes
  logTime : Nat
deriving Repr, DecidableEq

/-- The read-only view of a channel handed to a sink's filter callback.
Modelled from the spec: "a read-only, borrowed view of a Channel's
identity/schema/metadata, passed to a sink's filter callback". -/
structure ChannelDescriptor where
  topic : Bytes
  messageEncoding : Bytes
  schema : Option SchemaDef
  metadata : List (Bytes × Bytes)

/-- The descriptor of a channel, as constructed for filter callbacks. -/
def Channel.descriptor (ch : Channel) : ChannelDescriptor :=
  ⟨ch.topic, ch.messageEncoding, ch.schema, ch.metadata⟩

/-- An attached sink.  Modelled from the spec: a sink carries an
optional channel filter predicate evaluated once per channel at
channel-creation or sink-attachment time; `accepted` records the
channels the filter accepted (the channels advertised to this sink),
`advertisedSchemas` the schema bytes handed over at advertise time, and
`output` the records the sink has received (for a file sink, the
messages written to its file). -/
structure Sink where
  sinkId : Nat
  filter : ChannelDescriptor → Bool
  accepted : List Nat
  advertisedSchemas : List (Nat × Option SchemaDef)
  output : List Message

/-- A logging context.  Modelled from the spec: "a named scope; owns a
Schema/Channel Registry and a set of attached Sinks"; the registry
assigns monotonically increasing IDs starting from `nextId`. -/
structure Context where
  channels : List Channel
  nextId : Nat
  sinks : List Sink

/-- The empty context produced by `Context::create()`. -/
def Context.createEmpty : Context :=
  ⟨[], 1, []⟩

/-- Advertise channel `ch` to sink `s`: evaluate the sink's filter once
on the channel's descriptor; on acceptance record the channel and a copy
of its schema bytes.  Modelled from the spec: "the predicate receives a
ChannelDescriptor and returns accept/reject; rejection means this sink
never receives messages for that channel and is not advertised it". -/
def Sink.advertise (s : Sink) (ch : Channel) : Sink :=
  if s.filter ch.descriptor then
    { s with
      accepted := s.accepted ++ [ch.id]
      advertisedSchemas := s.advertisedSchemas ++ [(ch.id, ch.schema)] }
  else
    s

/-- Are all UTF-8-checked fields of an optional schema valid?  Modelled
from the spec: `Utf8Error` if topic/encoding/schema fields are not valid
UTF-8. -/
def schemaFieldsValid : Option SchemaDef → Bool
  | none => true
  | some s => isValidUtf8 s.name && isValidUtf8 s.encoding

/-- `create_channel` on a context.  Modelled from the spec:
`create_channel(topic, encoding, schema?, metadata?) -> ChannelID |
Error`; `Utf8Error` if topic/encoding/schema fields are not valid UTF-8;
"returns the existing ID, without mutating schema/metadata, if (topic,
encoding) already exists in this registry"; otherwise registers a fresh
channel under the next monotonic ID and synchronously advertises it to
every attached sink. -/
def Context.createChannel (c : Context) (topic messageEncoding : Bytes)
    (schema : Option SchemaDef) (metadata : List (Bytes × Bytes)) :
    Except FoxgloveError Nat × Context :=
  if ¬ isValidUtf8 topic then (.error .Utf8Error, c)
  else if ¬ isValidUtf8 messageEncoding then (.error .Utf8Error, c)
  else if ¬ schemaFieldsValid schema then (.error .Utf8Error, c)
  else
    match c.channels.find? (fun ch =>
        ch.topic == topic && ch.messageEncoding == messageEncoding) with
    | some ch => (.ok ch.id, c)
    | none =>
      let ch : Channel := ⟨c.nextId, topic, messageEncoding, schema, metadata, false⟩
      (.ok ch.id,
        { channels := c.channels ++ [ch]
          nextId := c.nextId + 1
          sinks := c.sinks.map (·.advertise ch) })

/-- Attach a sink to a context.  Modelled from the spec: "attaching a
sink to a Context with pre-existing channels synchronously advertises
(or silently skips) each one before returning"; closed channels are
already unadvertised. -/
def Context.attachSink (c : Context) (sinkId : Nat)
    (filter : ChannelDescriptor → Bool) : Context :=
  let s₀ : Sink := ⟨sinkId, filter, [], [], []⟩
  let s := (c.channels.filter (fun ch => !ch.closed)).foldl Sink.advertise s₀
  { c with sinks := c.sinks ++ [s] }

/-- `log(channel, bytes, time)` on a context.  Modelled from the spec:
every log call iterates currently attached sinks and delivers the record
to each sink that advertised the channel; a closed channel only elicits
a throttled warning, delivering nothing; filters are not re-evaluated
per message. -/
def Context.log (c : Context) (chId : Nat) (data : Bytes) (logTime : Nat) : Context :=
  match c.channels.find? (fun ch => ch.id == chId) with
  | none => c
  | some ch =>
    if ch.closed then c
    else
      { c with
        sinks := c.sinks.map (fun s =>
          if s.accepted.contains chId then
            { s with output := s.output ++ [⟨chId, data, logTime⟩] }
          else s) }

/-- `close()` on a channel.  Modelled from the spec: the channel "is
unadvertised from all sinks", further log attempts deliver nothing, and
the ID is not reused (the registry entry is kept, marked closed). -/
def Context.closeChannel (c : Context) (chId : Nat) : Context :=
  { c with
    channels := c.channels.map (fun ch =>
      if ch.id == chId then { ch with closed := true } else ch)
    sinks := c.sinks.map (fun s =>
      { s with accepted := s.accepted.filter (fun a => a ≠ chId) }) }

/-- `has_sinks()` on a channel: true iff some attached sink has the
channel advertised.  Modelled from the spec together with the channel
header's documentation ("find out if any sinks have been added to the
channel"). -/
def Context.hasSinks (c : Context) (chId : Nat) : Bool :=
  c.sinks.any (fun s => s.accepted.contains chId)

/-- `channel.schema()`: the schema stored in the registry for a channel
ID (`none` when the ID is unknown; `some none` when the channel was
created without a schema). -/
def Context.channelSchema (c : Context) (chId : Nat) : Option (Option SchemaDef) :=
  (c.channels.find? (fun ch => ch.id == chId)).map (·.schema)

/-- Well-formedness invariant of a context, maintained by the API:
channel IDs are below the next ID to assign and pairwise distinct, and
every channel a sink has accepted or been advertised is a registered
channel. -/
def Context.WF (c : Context) : Prop :=
  (∀ ch ∈ c.channels, ch.id < c.nextId) ∧
  (c.channels.map (·.id)).Nodup ∧
  (∀ s ∈ c.sinks, ∀ a ∈ s.accepted, a ∈ c.channels.map (·.id)) ∧
  (∀ s ∈ c.sinks, ∀ p ∈ s.advertisedSchemas, p.1 ∈ c.channels.map (·.id))

instance (c : Context) : Decidable c.WF := by
  unfold Context.WF
  infer_instance

/-- A process-wide collection of independent contexts, indexed by
position.  Modelled from the spec: "a process may have any number of
Contexts"; "channels created against one Context are invisible to sinks
attached to a different Context". -/
abbrev LogWorld := List Context

/-- Log on the channel `chId` of the context at index `i` of the world;
only that context's sinks are iterated. -/
def LogWorld.log (w : LogWorld) (i : Nat) (chId : Nat) (data : Bytes)
    (logTime : Nat) : LogWorld :=
  match w[i]? with
  | none => w
  | some c => w.set i (c.log chId data logTime)

/-- Caller-side state for the schema-copy property: the caller's schema
data buffer alongside the context.  The buffer models the memory the
C++ caller points `Schema::data` at; `RawChannel::create` reads it once,
at creation time. -/
structure CallerState where
  buf : Bytes
  ctx : Context

/-- Create a channel whose schema data is read from the caller's
buffer.  Modelled from the spec: the schema is "copied into the channel
at creation time so the caller's buffer may be freed or mutated
afterward without affecting the channel". -/
def CallerState.createFromBuffer (s : CallerState) (topic messageEncoding : Bytes)
    (schemaName schemaEncoding : Bytes) (metadata : List (Bytes × Bytes)) :
    Except FoxgloveError Nat × CallerState :=
  let r := s.ctx.createChannel topic messageEncoding
    (some ⟨schemaName, schemaEncoding, s.buf⟩) metadata
  (r.1, { s with ctx := r.2 })

/-- The caller overwrites (or frees and reuses) its schema buffer. -/
def CallerState.mutateBuffer (s : CallerState) (newBuf : Bytes) : CallerState :=
  { s with buf := newBuf }

/-- A file system visible to the MCAP writer: an association of paths
(byte strings, as on a POSIX file system) to file contents. -/
structure FileSystem where
  files : List (Bytes × Bytes)
deriving Repr, DecidableEq

/-- Does a file exist at `path`? -/
def FileSystem.pathExists (fs : FileSystem) (path : Bytes) : Bool :=
  fs.files.any (fun f => f.1 == path)

/-- `McapWriter::create` restricted to its path/truncate handling.
Modelled from the spec: "`create(path, options)`: fails with `IoError`
if the path exists and neither truncate nor (absent) create semantics
allow opening it, or if the path is not valid UTF-8 (`Utf8Error`)"; the
path crosses the C ABI as bytes and is converted to a UTF-8 string
before any file is touched, so the UTF-8 check precedes the open. -/
def mcapWriterCreate (fs : FileSystem) (path : Bytes) (truncate : Bool) :
    Except FoxgloveError Unit × FileSystem :=
  if ¬ isValidUtf8 path then (.error .Utf8Error, fs)
  else if fs.pathExists path && !truncate then (.error .IoError, fs)
  else if fs.pathExists path then
    (.ok (), ⟨fs.files.map (fun f => if f.1 == path then (f.1, []) else f)⟩)
  else
    (.ok (), ⟨fs.files ++ [(path, [])]⟩)

/-- The MCAP writer's record stream, restricted to metadata records:
each record is a name together with its key/value pairs. -/
structure McapSink where
  metadataRecords : List (Bytes × List (Bytes × Bytes))
deriving Repr, DecidableEq

/-- The C ABI entry point `foxglove_mcap_write_metadata`.  Modelled from
the spec: the writer "writes metadata records (string key/value blocks
keyed by a name) on demand via a separate `write_metadata(name,
kv_pairs)` call that is a no-op for an empty key/value set". -/
def foxglove_mcap_write_metadata (w : McapSink) (name : Bytes)
    (metadata : List (Bytes × Bytes)) : FoxgloveError × McapSink :=
  if metadata.isEmpty then (.Ok, w)
  else (.Ok, ⟨w.metadataRecords ++ [(name, metadata)]⟩)

/-- `McapWriter::writeMetadata` from `cpp/foxglove/include/foxglove/mcap.hpp`:
the template converts the iterator range to a C array of key/value pairs
(an element-by-element copy, embedded here as a `foldl` producing the
same list) and forwards it to `foxglove_mcap_write_metadata`. -/
def McapWriter.writeMetadata (w : McapSink) (name : Bytes)
    (pairs : List (Bytes × Bytes)) : FoxgloveError × McapSink :=
  let c_metadata := pairs.foldl (fun acc kv => acc ++ [kv]) []
  foxglove_mcap_write_metadata w name c_metadata

/-- The generated `encode(ptr, len, encoded_len)` of a schema struct.
Modelled from the spec: struct-to-wire conversion is a black box turning
a typed message into encoded bytes, so the message is represented by its
protobuf serialization `encoded`; per the generated documentation in
`typescript/schemas/src/internal/generateSdkCpp.ts`, on success the
serialized length is written to `*encoded_len` and the bytes to the
buffer, and "if the provided buffer has insufficient capacity, writes
the required capacity to `*encoded_len` and returns
`FoxgloveError::BufferTooShort`".  The result is (error code, value
written to `*encoded_len`, bytes written to the buffer). -/
def encodeMsg (encoded : Bytes) (len : Nat) : FoxgloveError × Nat × Bytes :=
  if len < encoded.length then (.BufferTooShort, encoded.length, [])
  else (.Ok, encoded.length, encoded)

/-- The tag reported by `Parameter::type()` in the C++ server binding.
Modelled from the spec's parameter store together with the SDK tests in
the repository (`Parameter construction and access`): the wire protocol
only distinguishes byte arrays, float64 and float64 arrays; every other
value carries no tag. -/
inductive ParameterType where
  | None
  | ByteArray
  | Float64
  | Float64Array
deriving Repr, DecidableEq

/-- A parameter value.  Modelled from the spec: "a tagged value (double,
integer, bool, UTF-8 string, byte array encoded as a string, homogeneous
array, or string-keyed dictionary of parameters — recursive)".  A double
is carried as its 64-bit pattern. -/
inductive PValue where
  | float64 (bits : Nat)
  | integer (i : Int)
  | boolean (b : Bool)
  | string (s : Bytes)
  | byteArray (data : Bytes)
  | array (xs : List PValue)
  | dict (entries : List (Bytes × PValue))

/-- A named parameter: name, reported type tag and optional value,
mirroring the C++ `foxglove::Parameter` of the server binding. -/
structure Parameter where
  name : Bytes
  type : ParameterType
  value : Option PValue

/-- `Parameter(name)`: a parameter without a value. -/
def Parameter.mkEmpty (name : Bytes) : Parameter :=
  ⟨name, .None, none⟩

/-- `Parameter(name, double)`: tagged `Float64`. -/
def Parameter.mkFloat64 (name : Bytes) (bits : Nat) : Parameter :=
  ⟨name, .Float64, some (.float64 bits)⟩

/-- `Parameter(name, int64_t)`: the protocol has no integer tag, so the
reported type is `None` while the value is stored. -/
def Parameter.mkInt64 (name : Bytes) (i : Int) : Parameter :=
  ⟨name, .None, some (.integer i)⟩

/-- `Parameter(name, bool)`: no tag. -/
def Parameter.mkBool (name : Bytes) (b : Bool) : Parameter :=
  ⟨name, .None, some (.boolean b)⟩

/-- `Parameter(name, data, data_len)`: a byte array, tagged
`ByteArray`. -/
def Parameter.mkByteArray (name : Bytes) (data : Bytes) : Parameter :=
  ⟨name, .ByteArray, some (.byteArray data)⟩

/-- `Parameter(name, std::vector<double>)`: tagged `Float64Array`. -/
def Parameter.mkFloat64Array (name : Bytes) (xs : List Nat) : Parameter :=
  ⟨name, .Float64Array, some (.array (xs.map PValue.float64))⟩

/-- `Parameter(name, std::vector<int64_t>)`: an array of integers; the
protocol has no integer-array tag, so the reported type is `None`. -/
def Parameter.mkInt64Array (name : Bytes) (xs : List Int) : Parameter :=
  ⟨name, .None, some (.array (xs.map PValue.integer))⟩

/-- `param.get<int64_t>()`: retrieve the integer value when one is
stored. -/
def Parameter.getInt64 (p : Parameter) : Option Int :=
  match p.value with
  | some (.integer i) => some i
  | _ => none

/-- The byte string `"test"`, used by concrete instances. -/
def topicTest : Bytes := [116, 101, 115, 116]

/-- The byte string `"json"`. -/
def encJson : Bytes := [106, 115, 111, 110]

/-- The byte string `"msgpack"`. -/
def encMsgpack : Bytes := [109, 115, 103, 112, 97, 99, 107]

/-- The byte string `"/1"`. -/
def topicOne : Bytes := [47, 49]

/-- The byte string `"/2"`. -/
def topicTwo : Bytes := [47, 50]

/-! ## Helper lemmas -/

/-- `foldl`-ing appends of singletons copies a list. -/
theorem foldl_append_singleton {α : Type} (l : List α) (init : List α) :
    l.foldl (fun acc a => acc ++ [a]) init = init ++ l := by
  induction l generalizing init with
  | nil => simp
  | cons a l ih => simp [List.foldl_cons, ih]

/-- Channels with equal IDs in a registry with `Nodup` IDs are equal. -/
theorem channel_eq_of_id_eq {l : List Channel} (h : (l.map (·.id)).Nodup)
    {x y : Channel} (hx : x ∈ l) (hy : y ∈ l) (hid : x.id = y.id) : x = y :=
  List.inj_on_of_nodup_map h hx hy hid

/-- `log` on a context whose registry finds an open channel appends the
message to the output of exactly the sinks that have the channel
advertised. -/
theorem log_eq_of_found {chans : List Channel} {nid : Nat} {sks : List Sink}
    {chId : Nat} {ch : Channel}
    (h : chans.find? (fun x => x.id == chId) = some ch) (hcl : ch.closed = false)
    (data : Bytes) (t : Nat) :
    Context.log ⟨chans, nid, sks⟩ chId data t =
      ⟨chans, nid, sks.map (fun s =>
        if s.accepted.contains chId then
          { s with output := s.output ++ [⟨chId, data, t⟩] }
        else s)⟩ := by
  unfold Context.log
  split
  · simp_all
  · next ch₂ heq =>
    rw [heq] at h
    cases h
    rw [if_neg (by simp [hcl])]

/-- A successful `createChannel` call validated its inputs and either
returned an existing registration unchanged or appended a fresh
channel under the next ID. -/
theorem createChannel_ok_cases {c : Context} {topic enc : Bytes}
    {schema : Option SchemaDef} {meta : List (Bytes × Bytes)} {chId : Nat} {c₁ : Context}
    (h : c.createChannel topic enc schema meta = (.ok chId, c₁)) :
    isValidUtf8 topic = true ∧ isValidUtf8 enc = true ∧ schemaFieldsValid schema = true ∧
    ((∃ ch, c.channels.find?
        (fun ch => ch.topic == topic && ch.messageEncoding == enc) = some ch ∧
        chId = ch.id ∧ c₁ = c) ∨
      (c.channels.find? (fun ch => ch.topic == topic && ch.messageEncoding == enc) = none ∧
        chId = c.nextId ∧
        c₁ = { channels := c.channels ++ [⟨c.nextId, topic, enc, schema, meta, false⟩]
               nextId := c.nextId + 1
               sinks := c.sinks.map (·.advertise ⟨c.nextId, topic, enc, schema, meta, false⟩) })) := by
  unfold Context.createChannel at h
  by_cases h1 : isValidUtf8 topic
  · by_cases h2 : isValidUtf8 enc
    · by_cases h3 : schemaFieldsValid schema
      · refine ⟨h1, h2, h3, ?_⟩
        simp only [h1, h2, h3, not_true, if_false] at h
        cases hf : c.channels.find?
            (fun ch => ch.topic == topic && ch.messageEncoding == enc) with
        | some ch =>
          rw [hf] at h
          left
          exact ⟨ch, rfl, by cases h; exact ⟨rfl, rfl⟩⟩
        | none =>
          rw [hf] at h
          right
          exact ⟨rfl, by cases h; exact ⟨rfl, rfl⟩⟩
      · simp [h1, h2, h3] at h
    · simp [h1, h2] at h
  · simp [h1] at h

/-! ## Claim theorems -/

/-- C4: for every topic string that is not valid UTF-8, channel creation
returns the error `Utf8Error` and creates no channel, leaving the
registry (indeed the whole context) unchanged. -/
theorem createChannel_invalid_utf8_topic (c : Context) (topic messageEncoding : Bytes)
    (schema : Option SchemaDef) (metadata : List (Bytes × Bytes))
    (h : isValidUtf8 topic = false) :
    c.createChannel topic messageEncoding schema metadata = (.error .Utf8Error, c) := by
  unfold Context.createChannel
  simp [h]

/-- Witness for C4 at the test's input: the topic `"\x80\x80\x80\x80"`
is invalid UTF-8 and channel creation on a fresh context fails with
`Utf8Error`, returning the context unchanged. -/
theorem createChannel_invalid_utf8_topic_witness :
    isValidUtf8 [0x80, 0x80, 0x80, 0x80] = false ∧
    Context.createEmpty.createChannel [0x80, 0x80, 0x80, 0x80]
        [106, 115, 111, 110] none [] =
      (.error .Utf8Error, Context.createEmpty) :=
  ⟨by decide,
   createChannel_invalid_utf8_topic Context.createEmpty [0x80, 0x80, 0x80, 0x80]
     [106, 115, 111, 110] none [] (by decide)⟩

/-- C5 counterexample: on a file system holding a file at the non-UTF-8
path `"\x80\x80\x80\x80"`, `McapWriter::create` with `truncate = false`
returns `Utf8Error`, not `IoError`, although the target path exists —
refuting "returns the error IoError whenever the target path already
exists and truncate is false". -/
theorem mcapWriterCreate_exists_utf8_precedence :
    (FileSystem.mk [([0x80, 0x80, 0x80, 0x80], [77])]).pathExists
        [0x80, 0x80, 0x80, 0x80] = true ∧
    (mcapWriterCreate ⟨[([0x80, 0x80, 0x80, 0x80], [77])]⟩
        [0x80, 0x80, 0x80, 0x80] false).1 = .error .Utf8Error ∧
    FoxgloveError.Utf8Error ≠ FoxgloveError.IoError :=
  ⟨by decide, rfl, by decide⟩

/-- C5 (amended): `McapWriter::create` returns `Utf8Error` whenever the
path is not valid UTF-8, creating no file (the file system is returned
unchanged); and whenever the path is valid UTF-8, already exists, and
truncate is false, it returns `IoError` with the file system unchanged,
so the pre-existing file still exists afterward. -/
theorem mcapWriterCreate_error_cases (fs : FileSystem) (path : Bytes) (truncate : Bool) :
    (isValidUtf8 path = false →
      mcapWriterCreate fs path truncate = (.error .Utf8Error, fs)) ∧
    (isValidUtf8 path = true → fs.pathExists path = true →
      mcapWriterCreate fs path false = (.error .IoError, fs)) := by
  constructor
  · intro h
    unfold mcapWriterCreate
    simp [h]
  · intro hv he
    unfold mcapWriterCreate
    simp [hv, he]

/-- Witness for C5: on a file system with a file at the valid-UTF-8 path
`"t"`, create with `truncate = false` fails with `IoError` leaving the
file in place; on an empty file system, create at the invalid path
`"\x80"` fails with `Utf8Error` with no file created. -/
theorem mcapWriterCreate_error_cases_witness :
    mcapWriterCreate ⟨[([116], [77])]⟩ [116] false = (.error .IoError, ⟨[([116], [77])]⟩) ∧
    mcapWriterCreate ⟨[]⟩ [0x80] true = (.error .Utf8Error, ⟨[]⟩) :=
  ⟨(mcapWriterCreate_error_cases ⟨[([116], [77])]⟩ [116] false).2 (by decide) (by decide),
   (mcapWriterCreate_error_cases ⟨[]⟩ [0x80] true).1 (by decide)⟩

/-- C8: `writeMetadata` called with an empty key/value range returns
`Ok` and writes no metadata record (the writer state is as if the call
never happened); called with a non-empty range it returns `Ok` and
appends one metadata record carrying the given name and exactly the
given key/value pairs. -/
theorem writeMetadata_empty_noop (w : McapSink) (name : Bytes)
    (pairs : List (Bytes × Bytes)) :
    McapWriter.writeMetadata w name pairs =
      (.Ok, if pairs.isEmpty then w else ⟨w.metadataRecords ++ [(name, pairs)]⟩) := by
  unfold McapWriter.writeMetadata foxglove_mcap_write_metadata
  rw [foldl_append_singleton]
  cases pairs <;> simp

/-- C9: for every encoded message and destination buffer shorter than
the encoded size, `encode` returns `BufferTooShort` and writes the
required capacity to `*encoded_len`; retrying with a buffer of exactly
that capacity returns `Ok`, writes the same length, and fills the
buffer with the encoding. -/
theorem encode_buffer_too_short_retry (encoded : Bytes) (len : Nat)
    (h : len < encoded.length) :
    encodeMsg encoded len = (.BufferTooShort, encoded.length, []) ∧
    encodeMsg encoded (encodeMsg encoded len).2.1 = (.Ok, encoded.length, encoded) := by
  constructor
  · unfold encodeMsg
    simp [h]
  · unfold encodeMsg
    simp [h]

/-- Witness for C9: a 3-byte encoding into a 2-byte buffer reports
`BufferTooShort` with required capacity 3; retrying with capacity 3
succeeds. -/
theorem encode_buffer_too_short_retry_witness :
    2 < ([1, 2, 3] : Bytes).length ∧
    encodeMsg [1, 2, 3] 2 = (.BufferTooShort, 3, []) ∧
    encodeMsg [1, 2, 3] (encodeMsg [1, 2, 3] 2).2.1 = (.Ok, 3, [1, 2, 3]) :=
  ⟨by decide,
   (encode_buffer_too_short_retry [1, 2, 3] 2 (by decide)).1,
   (encode_buffer_too_short_retry [1, 2, 3] 2 (by decide)).2⟩

/-- C10: parameters constructed from an `int64_t` or from a
`std::vector<int64_t>` report type `None` — the same tag as a parameter
with no value — while a double reports `Float64`, a byte array
`ByteArray` and a `std::vector<double>` `Float64Array`; the integer
value itself remains retrievable via `get<int64_t>()`. -/
theorem parameter_integer_type_is_none (name : Bytes) (i : Int) (xs : List Int)
    (bits : Nat) (data : Bytes) (ds : List Nat) :
    (Parameter.mkInt64 name i).type = .None ∧
    (Parameter.mkInt64Array name xs).type = .None ∧
    (Parameter.mkEmpty name).type = .None ∧
    (Parameter.mkFloat64 name bits).type = .Float64 ∧
    (Parameter.mkByteArray name data).type = .ByteArray ∧
    (Parameter.mkFloat64Array name ds).type = .Float64Array ∧
    (Parameter.mkInt64 name i).getInt64 = some i :=
  ⟨rfl, rfl, rfl, rfl, rfl, rfl, rfl⟩

/-- C1: a second `create_channel` call with topic and message encoding
identical to an existing channel returns the same channel ID and leaves
the context unchanged (no duplicate channel); a third call with the same
topic but a different encoding returns a distinct channel ID. -/
theorem createChannel_deduplicates (c : Context) (topic enc enc₂ : Bytes)
    (schema : Option SchemaDef) (meta : List (Bytes × Bytes))
    (chId : Nat) (c₁ : Context) (hwf : c.WF)
    (hcr : c.createChannel topic enc schema meta = (.ok chId, c₁))
    (henc₂ : isValidUtf8 enc₂ = true) (hne : enc ≠ enc₂) :
    c₁.createChannel topic enc schema meta = (.ok chId, c₁) ∧
    ∃ chId₃ c₃, c₁.createChannel topic enc₂ schema meta = (.ok chId₃, c₃) ∧
      chId₃ ≠ chId := by
  obtain ⟨hv1, hv2, hv3, hcases⟩ := createChannel_ok_cases hcr
  obtain ⟨hlt, hnodup, -, -⟩ := hwf
  rcases hcases with ⟨ch, hf, hid, hc⟩ | ⟨hf, hid, hc⟩
  · rw [hc, hid]
    constructor
    · unfold Context.createChannel
      simp [hv1, hv2, hv3, hf]
    · unfold Context.createChannel
      simp only [hv1, hv2, hv3, henc₂, not_true, ite_false, if_false, Bool.not_eq_true]
      cases hf₂ : c.channels.find?
          (fun x => x.topic == topic && x.messageEncoding == enc₂) with
      | some ch₂ =>
        refine ⟨ch₂.id, c, rfl, ?_⟩
        intro heq
        have hch := channel_eq_of_id_eq hnodup
          (List.mem_of_find?_eq_some hf₂) (List.mem_of_find?_eq_some hf) heq
        have hp := List.find?_some hf
        have hp₂ := List.find?_some hf₂
        simp only [Bool.and_eq_true, beq_iff_eq] at hp hp₂
        exact hne (hp.2.symm.trans (hch ▸ hp₂.2))
      | none =>
        refine ⟨_, _, rfl, ?_⟩
        have := hlt ch (List.mem_of_find?_eq_some hf)
        omega
  · rw [hc, hid]
    have hother : ((⟨c.nextId, topic, enc, schema, meta, false⟩ : Channel).topic == topic &&
        (⟨c.nextId, topic, enc, schema, meta, false⟩ : Channel).messageEncoding == enc₂) =
          false := by
      simp [hne]
    constructor
    · unfold Context.createChannel
      simp [hv1, hv2, hv3, List.find?_append, hf]
    · unfold Context.createChannel
      simp only [hv1, hv2, hv3, henc₂, not_true, ite_false, if_false, Bool.not_eq_true]
      rw [List.find?_append]
      cases hf₂ : c.channels.find?
          (fun x => x.topic == topic && x.messageEncoding == enc₂) with
      | some ch₂ =>
        refine ⟨ch₂.id, _, rfl, ?_⟩
        have := hlt ch₂ (List.mem_of_find?_eq_some hf₂)
        omega
      | none =>
        simp only [Option.none_or, List.find?_singleton, hother, cond_false]
        exact ⟨c.nextId + 1, _, rfl, by omega⟩

/-- Witness for C1 at the test's inputs: on a fresh context, creating
`("test", "json")` twice yields ID 1 both times with the context
unchanged by the second call, and creating `("test", "msgpack")` yields
a different ID. -/
theorem createChannel_deduplicates_witness :
    ((Context.createEmpty.createChannel topicTest encJson none []).2).createChannel
        topicTest encJson none [] =
      (.ok 1, (Context.createEmpty.createChannel topicTest encJson none []).2) ∧
    ∃ chId₃ c₃,
      ((Context.createEmpty.createChannel topicTest encJson none []).2).createChannel
          topicTest encMsgpack none [] = (.ok chId₃, c₃) ∧ chId₃ ≠ 1 :=
  createChannel_deduplicates Context.createEmpty topicTest encJson encMsgpack none [] 1 _
    (by decide) rfl (by decide) (by decide)

/-- C6: after `close()` on a channel with attached sinks, `has_sinks()`
is false; a subsequent `log` on the closed channel leaves the whole
context — in particular every sink's output — unchanged, so no sink that
previously received the channel gets the message; and a later
`create_channel` with a different topic never returns the closed
channel's ID. -/
theorem closeChannel_disconnects_sinks (c : Context) (ch : Channel) (hwf : c.WF)
    (hch : ch ∈ c.channels) (_hs : c.hasSinks ch.id = true) :
    (c.closeChannel ch.id).hasSinks ch.id = false ∧
    (∀ data logTime,
      (c.closeChannel ch.id).log ch.id data logTime = c.closeChannel ch.id) ∧
    (∀ topic₂ enc₂ schema₂ meta₂ chId₂ c₂, topic₂ ≠ ch.topic →
      (c.closeChannel ch.id).createChannel topic₂ enc₂ schema₂ meta₂ = (.ok chId₂, c₂) →
      chId₂ ≠ ch.id) := by
  obtain ⟨hlt, hnodup, -, -⟩ := hwf
  refine ⟨?_, ?_, ?_⟩
  · unfold Context.hasSinks Context.closeChannel
    simp [List.any_map, Function.comp, List.contains, List.elem_eq_mem, List.mem_filter]
  · intro data logTime
    unfold Context.log Context.closeChannel
    rw [List.find?_map]
    have hpf : ((fun x : Channel => x.id == ch.id) ∘
        (fun x : Channel => if x.id == ch.id then { x with closed := true } else x)) =
        fun x : Channel => x.id == ch.id := by
      funext x
      by_cases hx : x.id = ch.id <;> simp [hx]
    rw [hpf]
    cases hfx : c.channels.find? (fun x => x.id == ch.id) with
    | none => rfl
    | some x =>
      have hpx := List.find?_some hfx
      simp [hpx]
  · intro topic₂ enc₂ schema₂ meta₂ chId₂ c₂ htop hok
    obtain ⟨-, -, -, hcases⟩ := createChannel_ok_cases hok
    rcases hcases with ⟨ch₂, hf, hid, -⟩ | ⟨-, hid, -⟩
    · subst hid
      intro heq
      simp only [Context.closeChannel] at hf
      have hmem := List.mem_of_find?_eq_some hf
      obtain ⟨x, hx, hfx⟩ := List.mem_map.mp hmem
      have hxid : x.id = ch.id := by
        have : ch₂.id = x.id := by
          rw [← hfx]
          by_cases hxi : (x.id == ch.id) = true <;> simp [hxi]
        omega
      have hxch : x = ch := channel_eq_of_id_eq hnodup hx hch hxid
      have htopeq : ch₂.topic = topic₂ := by
        have hp := List.find?_some hf
        simp only [Bool.and_eq_true, beq_iff_eq] at hp
        exact hp.1
      have : ch₂.topic = ch.topic := by
        rw [← hfx, hxch]
        by_cases hxi : (ch.id == ch.id) = true <;> simp [hxi]
      exact htop (htopeq ▸ this)
    · simp only [Context.closeChannel] at hid
      have := hlt ch hch
      omega

/-- Witness for C6: a context with one accept-all sink and the channel
`("test", "json")` of ID 1; after closing channel 1, `has_sinks` is
false, logging on it changes nothing, and creating `("/1", "json")`
yields an ID other than 1. -/
theorem closeChannel_disconnects_sinks_witness :
    (⟨1, topicTest, encJson, none, [], false⟩ : Channel) ∈
      (((Context.createEmpty.attachSink 1 (fun _ => true)).createChannel
        topicTest encJson none []).2).channels ∧
    (((Context.createEmpty.attachSink 1 (fun _ => true)).createChannel
        topicTest encJson none []).2).hasSinks 1 = true ∧
    ((((Context.createEmpty.attachSink 1 (fun _ => true)).createChannel
        topicTest encJson none []).2).closeChannel 1).hasSinks 1 = false ∧
    (∀ data logTime,
      ((((Context.createEmpty.attachSink 1 (fun _ => true)).createChannel
          topicTest encJson none []).2).closeChannel 1).log 1 data logTime =
        (((Context.createEmpty.attachSink 1 (fun _ => true)).createChannel
          topicTest encJson none []).2).closeChannel 1) ∧
    (∀ topic₂ enc₂ schema₂ meta₂ chId₂ c₂, topic₂ ≠ topicTest →
      ((((Context.createEmpty.attachSink 1 (fun _ => true)).createChannel
          topicTest encJson none []).2).closeChannel 1).createChannel
          topic₂ enc₂ schema₂ meta₂ = (.ok chId₂, c₂) →
      chId₂ ≠ 1) :=
  have h := closeChannel_disconnects_sinks
    (((Context.createEmpty.attachSink 1 (fun _ => true)).createChannel
      topicTest encJson none []).2)
    ⟨1, topicTest, encJson, none, [], false⟩ (by decide) (by decide) (by decide)
  ⟨by decide, by decide, h.1, h.2.1, h.2.2⟩

/-- C2: when a channel is created while the context's sinks are
attached and a fresh message is then logged on it, the message appears
exactly once in the output of every sink whose filter accepted the
channel's descriptor and never in the output of a sink whose filter
rejected it. -/
theorem log_fanout_respects_filters (c : Context) (topic enc : Bytes)
    (schema : Option SchemaDef) (meta : List (Bytes × Bytes))
    (data : Bytes) (logTime : Nat) (chId : Nat) (c₁ : Context) (hwf : c.WF)
    (hcr : c.createChannel topic enc schema meta = (.ok chId, c₁))
    (hfresh : c.channels.find?
      (fun x => x.topic == topic && x.messageEncoding == enc) = none)
    (hout : ∀ s ∈ c.sinks, s.output.count ⟨chId, data, logTime⟩ = 0) :
    ∀ i : Nat,
      ((c₁.log chId data logTime).sinks[i]?.map
          fun s => s.output.count ⟨chId, data, logTime⟩) =
        (c.sinks[i]?.map fun s =>
          if s.filter ⟨topic, enc, schema, meta⟩ then 1 else 0) := by
  obtain ⟨hv1, hv2, hv3, hcases⟩ := createChannel_ok_cases hcr
  obtain ⟨hlt, hnodup, hacc, -⟩ := hwf
  rcases hcases with ⟨ch, hf, -, -⟩ | ⟨-, hid, hc⟩
  · rw [hfresh] at hf
    cases hf
  · subst hid
    subst hc
    intro i
    have hfind : (c.channels ++
        [(⟨c.nextId, topic, enc, schema, meta, false⟩ : Channel)]).find?
          (fun x => x.id == c.nextId) = some ⟨c.nextId, topic, enc, schema, meta, false⟩ := by
      rw [List.find?_append]
      have h1 : c.channels.find? (fun x => x.id == c.nextId) = none :=
        List.find?_eq_none.mpr (fun x hx => by
          have := hlt x hx
          simp only [beq_iff_eq, Bool.not_eq_true, decide_eq_false_iff_not]
          omega)
      rw [h1, Option.none_or, List.find?_singleton]
      simp
    rw [log_eq_of_found hfind rfl]
    simp only [List.getElem?_map, Option.map_map]
    cases hgi : c.sinks[i]? with
    | none => rfl
    | some s =>
      have hm : s ∈ c.sinks := List.getElem?_mem hgi
      by_cases hfs : s.filter ⟨topic, enc, schema, meta⟩
      · have hdel : ((s.advertise ⟨c.nextId, topic, enc, schema, meta, false⟩).accepted).contains
            c.nextId = true := by
          simp [Sink.advertise, Channel.descriptor, hfs, List.contains, List.elem_eq_mem]
        simp [Sink.advertise, Channel.descriptor, hfs, List.contains, List.elem_eq_mem,
          List.count_append, hout s hm]
      · have hnot : c.nextId ∉ s.accepted := by
          intro hmem
          obtain ⟨x, hx, hxid⟩ := List.mem_map.mp (hacc s hm c.nextId hmem)
          have := hlt x hx
          omega
        simp [Sink.advertise, Channel.descriptor, hfs, List.contains, List.elem_eq_mem, hnot,
          hout s hm]

/-- Witness for C2: a context with two sinks, one filtering for topic
`"/1"` and one for `"/2"`; after creating channel `("/1", "json")` and
logging one message, that message appears exactly once in the first
sink's output and never in the second's. -/
theorem log_fanout_respects_filters_witness :
    (((((Context.createEmpty.attachSink 1 (fun d => d.topic == topicOne)).attachSink 2
          (fun d => d.topic == topicTwo)).createChannel topicOne encJson none
            []).2.log 1 [104, 105] 42).sinks[0]?.map
        fun s => s.output.count ⟨1, [104, 105], 42⟩) =
      (((Context.createEmpty.attachSink 1 (fun d => d.topic == topicOne)).attachSink 2
          (fun d => d.topic == topicTwo)).sinks[0]?.map fun s =>
        if s.filter ⟨topicOne, encJson, none, []⟩ then 1 else 0) ∧
    (((((Context.createEmpty.attachSink 1 (fun d => d.topic == topicOne)).attachSink 2
          (fun d => d.topic == topicTwo)).createChannel topicOne encJson none
            []).2.log 1 [104, 105] 42).sinks[1]?.map
        fun s => s.output.count ⟨1, [104, 105], 42⟩) =
      (((Context.createEmpty.attachSink 1 (fun d => d.topic == topicOne)).attachSink 2
          (fun d => d.topic == topicTwo)).sinks[1]?.map fun s =>
        if s.filter ⟨topicOne, encJson, none, []⟩ then 1 else 0) :=
  ⟨log_fanout_respects_filters
      ((Context.createEmpty.attachSink 1 (fun d => d.topic == topicOne)).attachSink 2
        (fun d => d.topic == topicTwo))
      topicOne encJson none [] [104, 105] 42 1 _ (by decide) rfl (by decide) (by decide) 0,
   log_fanout_respects_filters
      ((Context.createEmpty.attachSink 1 (fun d => d.topic == topicOne)).attachSink 2
        (fun d => d.topic == topicTwo))
      topicOne encJson none [] [104, 105] 42 1 _ (by decide) rfl (by decide) (by decide) 1⟩

/-- C7: channel creation copies the schema's bytes: for a channel
created with schema data read from the caller's buffer, after the
caller mutates (or reuses) that buffer, `channel.schema()` and the
schema bytes advertised to every sink still equal the buffer contents
as they were at creation time. -/
theorem schema_copied_at_creation (s : CallerState)
    (topic enc schemaName schemaEncoding : Bytes)
    (meta : List (Bytes × Bytes)) (chId : Nat) (s₁ : CallerState) (hwf : s.ctx.WF)
    (hfresh : s.ctx.channels.find?
      (fun x => x.topic == topic && x.messageEncoding == enc) = none)
    (hcr : s.createFromBuffer topic enc schemaName schemaEncoding meta = (.ok chId, s₁)) :
    ∀ newBuf : Bytes,
      ((s₁.mutateBuffer newBuf).ctx.channelSchema chId) =
        some (some ⟨schemaName, schemaEncoding, s.buf⟩) ∧
      ∀ sk ∈ (s₁.mutateBuffer newBuf).ctx.sinks, ∀ p ∈ sk.advertisedSchemas,
        p.1 = chId → p.2 = some ⟨schemaName, schemaEncoding, s.buf⟩ := by
  obtain ⟨hlt, -, -, hadv⟩ := hwf
  have hfst := congrArg Prod.fst hcr
  have hsnd := congrArg Prod.snd hcr
  simp only [CallerState.createFromBuffer] at hfst hsnd
  have hcc : s.ctx.createChannel topic enc
      (some ⟨schemaName, schemaEncoding, s.buf⟩) meta = (.ok chId, s₁.ctx) :=
    Prod.ext hfst (congrArg CallerState.ctx hsnd)
  obtain ⟨-, -, -, hcases⟩ := createChannel_ok_cases hcc
  rcases hcases with ⟨ch, hf, -, -⟩ | ⟨-, hid, hc⟩
  · rw [hfresh] at hf
    cases hf
  · intro newBuf
    have hctx : (s₁.mutateBuffer newBuf).ctx = s₁.ctx := rfl
    rw [hctx, hc]
    subst hid
    constructor
    · unfold Context.channelSchema
      have hfind : (s.ctx.channels ++
          [(⟨s.ctx.nextId, topic, enc, some ⟨schemaName, schemaEncoding, s.buf⟩,
            meta, false⟩ : Channel)]).find? (fun x => x.id == s.ctx.nextId) =
            some ⟨s.ctx.nextId, topic, enc,
              some ⟨schemaName, schemaEncoding, s.buf⟩, meta, false⟩ := by
        rw [List.find?_append]
        have h1 : s.ctx.channels.find? (fun x => x.id == s.ctx.nextId) = none :=
          List.find?_eq_none.mpr (fun x hx => by
            have := hlt x hx
            simp only [beq_iff_eq, Bool.not_eq_true, decide_eq_false_iff_not]
            omega)
        rw [h1, Option.none_or, List.find?_singleton]
        simp
      rw [hfind]
      rfl
    · intro sk hsk p hp hpid
      obtain ⟨s₀, hs₀, hadvs₀⟩ := List.mem_map.mp hsk
      have hold : ∀ q ∈ s₀.advertisedSchemas, q.1 ≠ s.ctx.nextId := by
        intro q hq
        obtain ⟨x, hx, hxid⟩ := List.mem_map.mp (hadv s₀ hs₀ q hq)
        have := hlt x hx
        omega
      rw [← hadvs₀] at hp
      unfold Sink.advertise at hp
      by_cases hfs : s₀.filter
          (Channel.descriptor ⟨s.ctx.nextId, topic, enc,
            some ⟨schemaName, schemaEncoding, s.buf⟩, meta, false⟩)
      · rw [if_pos hfs] at hp
        simp only [List.mem_append, List.mem_singleton] at hp
        rcases hp with hp | hp
        · exact absurd hpid (hold p hp)
        · rw [hp]
      · rw [if_neg hfs] at hp
        exact absurd hpid (hold p hp)

/-- Witness for C7: create channel `("test", "json")` with schema data
read from the caller buffer `"FA"`, then overwrite the buffer with
`"XX"`; the registered schema and the schema advertised to the attached
sink still carry `"FA"`. -/
theorem schema_copied_at_creation_witness :
    ((((CallerState.mk [70, 65] (Context.createEmpty.attachSink 1 (fun _ => true))).createFromBuffer
        topicTest encJson [110] [112] []).2.mutateBuffer [88, 88]).ctx.channelSchema 1) =
      some (some ⟨[110], [112], [70, 65]⟩) ∧
    ∀ sk ∈ (((CallerState.mk [70, 65]
          (Context.createEmpty.attachSink 1 (fun _ => true))).createFromBuffer
        topicTest encJson [110] [112] []).2.mutateBuffer [88, 88]).ctx.sinks,
      ∀ p ∈ sk.advertisedSchemas, p.1 = 1 → p.2 = some ⟨[110], [112], [70, 65]⟩ :=
  schema_copied_at_creation
    (CallerState.mk [70, 65] (Context.createEmpty.attachSink 1 (fun _ => true)))
    topicTest encJson [110] [112] [] 1 _ (by decide) (by decide) rfl [88, 88]

/-- C3: logging on the context at index `i` of a process's contexts
never changes any other context: every sink attached to a different
context keeps exactly its previous output, so a message logged on
context B never appears in an MCAP file whose writer is attached to
context A. -/
theorem log_isolated_between_contexts (w : LogWorld) (i j : Nat) (chId : Nat)
    (data : Bytes) (logTime : Nat) (hne : j ≠ i) :
    (w.log i chId data logTime)[j]? = w[j]? ∧
    ((w.log i chId data logTime)[j]?.map fun ctx => ctx.sinks.map (·.output)) =
      (w[j]?.map fun ctx => ctx.sinks.map (·.output)) := by
  have h : (w.log i chId data logTime)[j]? = w[j]? := by
    unfold LogWorld.log
    split
    · rfl
    · exact List.getElem?_set_ne (fun hij => hne hij.symm)
  exact ⟨h, by rw [h]⟩

/-- Witness for C3: in a world of two contexts, each with one attached
sink, logging on the channel of the second context leaves the first
context — and hence its sink's output — untouched. -/
theorem log_isolated_between_contexts_witness :
    ((LogWorld.log [Context.createEmpty.attachSink 1 (fun _ => true),
        (((Context.createEmpty.attachSink 2 (fun _ => true)).createChannel
          topicTest encJson none []).2)] 1 1 [104, 105] 42)[0]? =
      [Context.createEmpty.attachSink 1 (fun _ => true),
        (((Context.createEmpty.attachSink 2 (fun _ => true)).createChannel
          topicTest encJson none []).2)][0]?) ∧
    (((LogWorld.log [Context.createEmpty.attachSink 1 (fun _ => true),
        (((Context.createEmpty.attachSink 2 (fun _ => true)).createChannel
          topicTest encJson none []).2)] 1 1 [104, 105] 42)[0]?.map
            fun ctx => ctx.sinks.map (·.output)) =
      ([Context.createEmpty.attachSink 1 (fun _ => true),
        (((Context.createEmpty.attachSink 2 (fun _ => true)).createChannel
          topicTest encJson none []).2)][0]?.map fun ctx => ctx.sinks.map (·.output))) :=
  log_isolated_between_contexts _ 1 0 1 [104, 105] 42 (by decide)

